import Mathlib

/-!
Verification of the chat front-end in `src/app/page.js` (ai-researcher-project).

The file embeds, as pure Lean functions, the state-transforming logic of
`handleResearch` (the send/stream flow), `handleDeleteConversation`,
`loadConversation` and `fetchHistory`, together with a byte-level model of the
WHATWG incremental UTF-8 decoder (`TextDecoder` with `{stream: true}`) used by
the streaming loop.  External effects (the `fetch` of `/research`, the
supabase queries, `window.confirm`, `alert`) are modelled by explicit outcome
parameters and by a trace of issued external calls returned alongside the new
state.
-/

namespace AiResearcher

/-- A chat message `{role, content}` as used throughout `page.js`.
Roles are the strings `"user"` and `"ai"` in the source. -/
structure Message where
  role : String
  content : String
deriving DecidableEq, Repr

/-- One row of the sidebar history list: `{id, query_text, created_at}`
selected from the `conversations` table in `fetchHistory`. -/
structure Conv where
  id : String
  query_text : String
  created_at : Nat
deriving DecidableEq, Repr

/-- The React state of `HomePage` that the handlers read and write.
`session` is modelled by the signed-in user's id (`session.user.id`),
`none` when signed out. -/
structure AppState where
  session : Option String
  messages : List Message
  query : String
  history : List Conv
  currentConversationId : Option String
  isLoading : Bool
  isLoadingHistory : Bool
  isLoadingConversation : Bool
  sidebarOpen : Bool
deriving DecidableEq, Repr

/-- External calls a handler issues, in order: the `POST /research` fetch and
the supabase select of `conversations` performed by `fetchHistory`. -/
inductive ExtCall where
  | research (query : String) (userId : String) (conversationId : Option String)
  | historySelect (userId : String)
deriving DecidableEq, Repr

/-! ## Incremental UTF-8 decoder (WHATWG `TextDecoder`, streaming mode)

`handleResearch` decodes each byte chunk with
`decoder.decode(value, {stream: true})`, so a multi-byte character split
across chunks is carried in the decoder state between calls.  The model below
is the WHATWG UTF-8 decode algorithm: `codepoint`, `bytesSeen`, `bytesNeeded`
and the lower/upper boundaries for the next continuation byte. -/

structure DecoderState where
  codepoint : Nat
  bytesSeen : Nat
  bytesNeeded : Nat
  lowerBoundary : Nat
  upperBoundary : Nat
deriving DecidableEq, Repr

/-- The decoder state at `new TextDecoder()` and after each completed or
replaced sequence. -/
def initDecoder : DecoderState :=
  { codepoint := 0, bytesSeen := 0, bytesNeeded := 0,
    lowerBoundary := 0x80, upperBoundary := 0xBF }

/-- Processing one byte when no multi-byte sequence is pending
(`bytesNeeded = 0`). -/
def utf8StepInit (b : Nat) : DecoderState × List Char :=
  if b ≤ 0x7F then
    (initDecoder, [Char.ofNat b])
  else if 0xC2 ≤ b ∧ b ≤ 0xDF then
    ({ codepoint := b - 0xC0, bytesSeen := 0, bytesNeeded := 1,
       lowerBoundary := 0x80, upperBoundary := 0xBF }, [])
  else if 0xE0 ≤ b ∧ b ≤ 0xEF then
    ({ codepoint := b - 0xE0, bytesSeen := 0, bytesNeeded := 2,
       lowerBoundary := if b = 0xE0 then 0xA0 else 0x80,
       upperBoundary := if b = 0xED then 0x9F else 0xBF }, [])
  else if 0xF0 ≤ b ∧ b ≤ 0xF4 then
    ({ codepoint := b - 0xF0, bytesSeen := 0, bytesNeeded := 3,
       lowerBoundary := if b = 0xF0 then 0x90 else 0x80,
       upperBoundary := if b = 0xF4 then 0x8F else 0xBF }, [])
  else
    (initDecoder, [Char.ofNat 0xFFFD])

/-- Processing one byte of the stream.  On a continuation-byte boundary
failure the WHATWG algorithm emits U+FFFD and reprocesses the byte from the
initial state. -/
def utf8Step (ds : DecoderState) (b : Nat) : DecoderState × List Char :=
  if ds.bytesNeeded = 0 then
    utf8StepInit b
  else if ds.lowerBoundary ≤ b ∧ b ≤ ds.upperBoundary then
    let cp := ds.codepoint * 64 + (b - 0x80)
    if ds.bytesSeen + 1 = ds.bytesNeeded then
      (initDecoder, [Char.ofNat cp])
    else
      ({ codepoint := cp, bytesSeen := ds.bytesSeen + 1,
         bytesNeeded := ds.bytesNeeded,
         lowerBoundary := 0x80, upperBoundary := 0xBF }, [])
  else
    ((utf8StepInit b).1, Char.ofNat 0xFFFD :: (utf8StepInit b).2)

/-- Run the decoder over a list of bytes, returning the final decoder state
and the emitted characters.  In streaming mode a trailing incomplete
sequence stays in the state and emits nothing (the source never calls the
final flush `decoder.decode()`). -/
def decodeList : DecoderState → List Nat → DecoderState × List Char
  | ds, [] => (ds, [])
  | ds, b :: rest =>
    ((decodeList (utf8Step ds b).1 rest).1,
     (utf8Step ds b).2 ++ (decodeList (utf8Step ds b).1 rest).2)

/-- Standard UTF-8 encoding of a Unicode scalar value, in arithmetic form. -/
def encodeChar (c : Nat) : List Nat :=
  if c < 0x80 then [c]
  else if c < 0x800 then
    [0xC0 + c / 64, 0x80 + c % 64]
  else if c < 0x10000 then
    [0xE0 + c / 4096, 0x80 + (c / 64) % 64, 0x80 + c % 64]
  else
    [0xF0 + c / 262144, 0x80 + (c / 4096) % 64, 0x80 + (c / 64) % 64,
     0x80 + c % 64]

/-- UTF-8 encoding of a list of characters. -/
def utf8EncodeChars : List Char → List Nat
  | [] => []
  | c :: cs => encodeChar c.toNat ++ utf8EncodeChars cs

/-- UTF-8 encoding of a string. -/
def utf8Encode (s : String) : List Nat := utf8EncodeChars s.data

/-! ## Handler embeddings -/

/-- Outcome of a supabase select in `fetchHistory`: `{data, error}`.
`data` may be null (modelled `none`); `setHistory(data || [])` guards it. -/
inductive HistoryResult where
  | ok (data : Option (List Conv))
  | err (msg : String)
deriving DecidableEq, Repr

/-- `fetchHistory` (page.js 72-94): guard on a falsy user id, select the 20
newest conversations, set `history` (to `[]` on error), clear the loading
flag in `finally`, and return the fetched data (`none` models the early
return and a null `data`; on error the function returns `[]`). -/
def fetchHistory (st : AppState) (userId : String) (res : HistoryResult) :
    AppState × Option (List Conv) × List ExtCall :=
  if userId = "" then (st, none, [])
  else
    match res with
    | .ok data =>
      ({ st with history := data.getD [], isLoadingHistory := false },
       data, [.historySelect userId])
    | .err _ =>
      ({ st with history := [], isLoadingHistory := false },
       some [], [.historySelect userId])

/-- `startNewChat` (page.js 64-69). -/
def startNewChat (st : AppState) : AppState :=
  { st with messages := [], query := "", currentConversationId := none,
            sidebarOpen := false }

/-- Outcome of one supabase `delete` call: `{error}`. -/
inductive DbResult where
  | ok
  | err (msg : String)
deriving DecidableEq, Repr

/-- `handleDeleteConversation` (page.js 133-166): find the entry, ask for
confirmation, delete message rows then the conversation row, and only after
both succeed filter the local history (starting a new chat if the active
conversation was deleted).  Any throw is caught and surfaced via `alert`;
the returned list holds the alert texts shown. -/
def handleDeleteConversation (st : AppState) (conversationId : String)
    (confirmed : Bool) (delMessages delConv : DbResult) :
    AppState × List String :=
  match st.history.find? (fun conv => conv.id == conversationId) with
  | none => (st, [])
  | some _ =>
    if !confirmed then (st, [])
    else
      match delMessages with
      | .err m => (st, ["Failed to delete chat: " ++ m])
      | .ok =>
        match delConv with
        | .err m => (st, ["Failed to delete chat: " ++ m])
        | .ok =>
          let st1 := { st with
            history := st.history.filter (fun conv => conv.id != conversationId) }
          if st1.currentConversationId = some conversationId then
            (startNewChat st1, [])
          else (st1, [])

/-- Outcome of the `GET /conversation/{id}` fetch in `loadConversation`:
a network/parse throw, a non-ok response whose JSON body may carry `detail`,
or an ok response with the message rows. -/
inductive LoadResult where
  | netError (msg : String)
  | httpError (detail : Option String)
  | ok (data : List Message)
deriving DecidableEq, Repr

/-- The `error.message` produced by a failed load: the thrown
`data.detail || 'Failed to load messages.'` (an absent or empty — falsy —
`detail` falls back) or the transport error's message. -/
def LoadResult.errText : LoadResult → Option String
  | .netError m => some m
  | .httpError (some d) => some (if d = "" then "Failed to load messages." else d)
  | .httpError none => some "Failed to load messages."
  | .ok _ => none

/-- `loadConversation` (page.js 97-123): guard on a falsy id or an in-flight
load, clear the messages, close the sidebar, set the active conversation id,
fetch the rows; on success map them into local messages, on any failure show
a single synthetic `ai` message; `finally` clears the loading flag. -/
def loadConversation (st : AppState) (conversationId : String)
    (res : LoadResult) : AppState :=
  if conversationId = "" ∨ st.isLoadingConversation then st
  else
    let st1 := { st with isLoadingConversation := true, messages := [],
                         sidebarOpen := false,
                         currentConversationId := some conversationId }
    let st2 :=
      match res with
      | .ok data =>
        { st1 with messages := data.map (fun (msg : Message) =>
            { role := msg.role, content := msg.content }) }
      | other =>
        { st1 with messages :=
            [{ role := "ai",
               content := "Failed to load conversation: "
                 ++ (other.errText.getD "") }] }
    { st2 with isLoadingConversation := false }

/-- Outcome of the `POST /research` fetch in `handleResearch`: a throw from
`fetch` itself, a non-ok status whose JSON body may carry `detail` (`none`
models a body that fails to parse or has no `detail`), or an ok response
streaming `chunks` of bytes, with `readError` the message of a mid-stream
`reader.read()` rejection (`none` when the stream is consumed to `done`). -/
inductive ResearchOutcome where
  | netError (msg : String)
  | httpError (status : Nat) (detail : Option String)
  | stream (chunks : List (List Nat)) (readError : Option String)
deriving DecidableEq, Repr

/-- The `errorBody` of page.js 196-197: `errJson.detail || fallback`, where
an absent or falsy (empty) `detail` keeps `HTTP error! status: ...`. -/
def httpErrorBody (status : Nat) (detail : Option String) : String :=
  match detail with
  | some d => if d = "" then "HTTP error! status: " ++ toString status else d
  | none => "HTTP error! status: " ++ toString status

/-- The `error.message` of the exception the catch block of `handleResearch`
receives, for each failing outcome. -/
def ResearchOutcome.errText : ResearchOutcome → Option String
  | .netError m => some m
  | .httpError status detail => some (httpErrorBody status detail)
  | .stream _ readError => readError

/-- Whether the outcome short-circuits before any streaming: a `fetch`
throw or a non-ok status (page.js 195-199). -/
def ResearchOutcome.isPreStreamError : ResearchOutcome → Bool
  | .netError _ => true
  | .httpError _ _ => true
  | .stream _ _ => false

/-- The synthetic `ai` message built in the catch block (page.js 223). -/
def researchErrorMessage (msg : String) : Message :=
  { role := "ai",
    content := "Error: " ++ msg
      ++ "\n\nThere was an issue connecting to the AI service." }

/-- The `setMessages` updater run on each chunk (page.js 212-218): replace
the last entry when it exists and has role `ai`, otherwise leave the list
untouched. -/
def chunkUpdate (prev : List Message) (acc : String) : List Message :=
  match prev.getLast? with
  | some m =>
    if m.role = "ai" then prev.dropLast ++ [{ role := "ai", content := acc }]
    else prev
  | none => prev

/-- The `setMessages` updater run in the catch block (page.js 225-232):
replace the last entry when it has role `ai`, otherwise append. -/
def errorUpdate (prev : List Message) (errorMessage : Message) : List Message :=
  match prev.getLast? with
  | some m =>
    if m.role = "ai" then prev.dropLast ++ [errorMessage]
    else prev ++ [errorMessage]
  | none => prev ++ [errorMessage]

/-- The loop state of the streaming while-loop: the `TextDecoder`'s carry
state, `aiResponseContent`, and the message list. -/
structure StreamAcc where
  dec : DecoderState
  content : String
  messages : List Message
deriving DecidableEq, Repr

/-- One iteration of the while-loop (page.js 205-219): decode the chunk with
carried state, append to `aiResponseContent`, and run `chunkUpdate`. -/
def streamStep (acc : StreamAcc) (chunkBytes : List Nat) : StreamAcc :=
  { dec := (decodeList acc.dec chunkBytes).1,
    content := acc.content ++ String.mk (decodeList acc.dec chunkBytes).2,
    messages := chunkUpdate acc.messages
      (acc.content ++ String.mk (decodeList acc.dec chunkBytes).2) }

/-- The whole while-loop over the delivered chunks. -/
def streamLoop (acc : StreamAcc) (chunks : List (List Nat)) : StreamAcc :=
  chunks.foldl streamStep acc

/-- The `finally` block of `handleResearch` (page.js 236-241), after the
busy flag is cleared: when the send began as a new chat and a session
exists, refetch the history and, if non-empty, adopt the newest entry's id.
`researchCall` is the already-issued fetch, prepended to the trace. -/
def finallyResync (st4 : AppState) (userId : String) (isNewChat : Bool)
    (hist : HistoryResult) (researchCall : ExtCall) :
    AppState × List ExtCall :=
  if isNewChat && st4.session.isSome then
    match fetchHistory st4 userId hist with
    | (st5, some (c :: _), calls) =>
      ({ st5 with currentConversationId := some c.id },
       researchCall :: calls)
    | (st5, _, calls) => (st5, researchCall :: calls)
  else (st4, [researchCall])

/-- `handleResearch` (page.js 170-243): guard, set the busy flag, append the
user message and the `ai` placeholder, clear the input, issue the fetch and
either consume the stream or build the catch-block error message, then in
`finally` clear the busy flag and — whenever the send began with no active
conversation id — resync the history and adopt the newest entry's id.
Returns the new state and the trace of external calls issued. -/
def handleResearch (st : AppState) (outcome : ResearchOutcome)
    (hist : HistoryResult) : AppState × List ExtCall :=
  if st.session = none ∨ st.query = "" ∨ st.isLoading then (st, [])
  else
    let userId := st.session.getD ""
    let isNewChat := st.currentConversationId.isNone
    let userMessage : Message := { role := "user", content := st.query }
    let aiMessagePlaceholder : Message := { role := "ai", content := "" }
    let st1 := { st with isLoading := true,
                         messages := st.messages ++ [userMessage],
                         query := "" }
    let st2 := { st1 with messages := st1.messages ++ [aiMessagePlaceholder] }
    let researchCall :=
      ExtCall.research st.query userId st.currentConversationId
    let st3 :=
      match outcome with
      | .stream chunks none =>
        { st2 with messages :=
            (streamLoop { dec := initDecoder, content := "",
                          messages := st2.messages } chunks).messages }
      | .stream chunks (some msg) =>
        let streamed :=
          (streamLoop { dec := initDecoder, content := "",
                        messages := st2.messages } chunks).messages
        { st2 with messages :=
            errorUpdate streamed (researchErrorMessage msg) }
      | .netError msg =>
        { st2 with messages :=
            errorUpdate st2.messages (researchErrorMessage msg) }
      | .httpError status detail =>
        { st2 with messages := errorUpdate st2.messages (researchErrorMessage (httpErrorBody status detail)) }
    let st4 := { st3 with isLoading := false }
    finallyResync st4 userId isNewChat hist researchCall

/-- No two adjacent entries of a role list are both `"ai"`. -/
def noConsecAiR : List String → Bool
  | [] => true
  | [_] => true
  | a :: b :: rest => !(a == "ai" && b == "ai") && noConsecAiR (b :: rest)

/-- No two consecutive `ai`-role entries in a message list. -/
def noConsecAi (msgs : List Message) : Bool :=
  noConsecAiR (msgs.map Message.role)

/-- The content the trailing `ai` entry holds when `handleResearch` returns,
for each outcome: the fully decoded stream on success, the catch-block text
otherwise. -/
def researchFinalContent (o : ResearchOutcome) : String :=
  match o with
  | .netError m => (researchErrorMessage m).content
  | .httpError status detail =>
    (researchErrorMessage (httpErrorBody status detail)).content
  | .stream chunks none => String.mk (decodeList initDecoder chunks.flatten).2
  | .stream _ (some m) => (researchErrorMessage m).content

/-! ## Decoder correctness -/

theorem utf8Step_ascii (b : Nat) (h : b ≤ 0x7F) :
    utf8Step initDecoder b = (initDecoder, [Char.ofNat b]) := by
  simp [utf8Step, utf8StepInit, initDecoder, h]

theorem utf8Step_lead2 (b : Nat) (h1 : 0xC2 ≤ b) (h2 : b ≤ 0xDF) :
    utf8Step initDecoder b =
      ({ codepoint := b - 0xC0, bytesSeen := 0, bytesNeeded := 1,
         lowerBoundary := 0x80, upperBoundary := 0xBF }, []) := by
  have h0 : initDecoder.bytesNeeded = 0 := rfl
  rw [utf8Step, if_pos h0, utf8StepInit, if_neg (by omega), if_pos ⟨h1, h2⟩]

theorem utf8Step_lead3 (b : Nat) (h1 : 0xE0 ≤ b) (h2 : b ≤ 0xEF) :
    utf8Step initDecoder b =
      ({ codepoint := b - 0xE0, bytesSeen := 0, bytesNeeded := 2,
         lowerBoundary := if b = 0xE0 then 0xA0 else 0x80,
         upperBoundary := if b = 0xED then 0x9F else 0xBF }, []) := by
  have h0 : initDecoder.bytesNeeded = 0 := rfl
  rw [utf8Step, if_pos h0, utf8StepInit, if_neg (by omega),
    if_neg (by omega), if_pos ⟨h1, h2⟩]

theorem utf8Step_lead4 (b : Nat) (h1 : 0xF0 ≤ b) (h2 : b ≤ 0xF4) :
    utf8Step initDecoder b =
      ({ codepoint := b - 0xF0, bytesSeen := 0, bytesNeeded := 3,
         lowerBoundary := if b = 0xF0 then 0x90 else 0x80,
         upperBoundary := if b = 0xF4 then 0x8F else 0xBF }, []) := by
  have h0 : initDecoder.bytesNeeded = 0 := rfl
  rw [utf8Step, if_pos h0, utf8StepInit, if_neg (by omega),
    if_neg (by omega), if_neg (by omega), if_pos ⟨h1, h2⟩]

theorem utf8Step_contMid (cp seen needed lo hi b : Nat)
    (hne : needed ≠ 0) (hfin : seen + 1 ≠ needed)
    (hlo : lo ≤ b) (hhi : b ≤ hi) :
    utf8Step { codepoint := cp, bytesSeen := seen, bytesNeeded := needed,
               lowerBoundary := lo, upperBoundary := hi } b =
      ({ codepoint := cp * 64 + (b - 0x80), bytesSeen := seen + 1,
         bytesNeeded := needed, lowerBoundary := 0x80,
         upperBoundary := 0xBF }, []) := by
  rw [utf8Step, if_neg hne, if_pos ⟨hlo, hhi⟩]
  simp only [if_neg hfin]

theorem utf8Step_contFin (cp seen needed lo hi b : Nat)
    (hne : needed ≠ 0) (hfin : seen + 1 = needed)
    (hlo : lo ≤ b) (hhi : b ≤ hi) :
    utf8Step { codepoint := cp, bytesSeen := seen, bytesNeeded := needed,
               lowerBoundary := lo, upperBoundary := hi } b =
      (initDecoder, [Char.ofNat (cp * 64 + (b - 0x80))]) := by
  rw [utf8Step, if_neg hne, if_pos ⟨hlo, hhi⟩]
  simp only [if_pos hfin]

theorem decode_encodeChar (n : Nat) (h : Nat.isValidChar n) (rest : List Nat) :
    decodeList initDecoder (encodeChar n ++ rest) =
      ((decodeList initDecoder rest).1,
       Char.ofNat n :: (decodeList initDecoder rest).2) := by
  have hlt : n < 0x110000 := by
    rcases h with h | ⟨_, h2⟩
    · omega
    · exact h2
  have hsur : n < 0xd800 ∨ 0xdfff < n := by
    rcases h with h | ⟨h1, _⟩
    · exact Or.inl h
    · exact Or.inr h1
  by_cases h1 : n < 0x80
  · have henc : encodeChar n = [n] := by rw [encodeChar, if_pos h1]
    rw [henc]
    simp only [List.cons_append, List.nil_append, decodeList]
    rw [utf8Step_ascii n (by omega)]
    simp
  · by_cases h2 : n < 0x800
    · have henc : encodeChar n = [0xC0 + n / 64, 0x80 + n % 64] := by
        rw [encodeChar, if_neg h1, if_pos h2]
      rw [henc]
      simp only [List.cons_append, List.nil_append, decodeList]
      rw [utf8Step_lead2 (0xC0 + n / 64) (by omega) (by omega)]
      dsimp only
      have e1 : 0xC0 + n / 64 - 0xC0 = n / 64 := by omega
      rw [e1]
      rw [utf8Step_contFin (n / 64) 0 1 0x80 0xBF (0x80 + n % 64)
        (by omega) rfl (by omega) (by omega)]
      dsimp only
      have e2 : n / 64 * 64 + (0x80 + n % 64 - 0x80) = n := by omega
      rw [e2]
      simp
    · by_cases h3 : n < 0x10000
      · have henc : encodeChar n
            = [0xE0 + n / 4096, 0x80 + (n / 64) % 64, 0x80 + n % 64] := by
          rw [encodeChar, if_neg h1, if_neg h2, if_pos h3]
        rw [henc]
        simp only [List.cons_append, List.nil_append, decodeList]
        rw [utf8Step_lead3 (0xE0 + n / 4096) (by omega) (by omega)]
        dsimp only
        have e1 : 0xE0 + n / 4096 - 0xE0 = n / 4096 := by omega
        rw [e1]
        rw [utf8Step_contMid (n / 4096) 0 2 _ _ (0x80 + (n / 64) % 64)
          (by omega) (by omega) (by split <;> omega) (by split <;> omega)]
        dsimp only
        have e2 : n / 4096 * 64 + (0x80 + (n / 64) % 64 - 0x80) = n / 64 := by
          omega
        rw [e2]
        rw [utf8Step_contFin (n / 64) 1 2 0x80 0xBF (0x80 + n % 64)
          (by omega) rfl (by omega) (by omega)]
        dsimp only
        have e3 : n / 64 * 64 + (0x80 + n % 64 - 0x80) = n := by omega
        rw [e3]
        simp
      · have henc : encodeChar n
            = [0xF0 + n / 262144, 0x80 + (n / 4096) % 64,
               0x80 + (n / 64) % 64, 0x80 + n % 64] := by
          rw [encodeChar, if_neg h1, if_neg h2, if_neg h3]
        rw [henc]
        simp only [List.cons_append, List.nil_append, decodeList]
        rw [utf8Step_lead4 (0xF0 + n / 262144) (by omega) (by omega)]
        dsimp only
        have e1 : 0xF0 + n / 262144 - 0xF0 = n / 262144 := by omega
        rw [e1]
        rw [utf8Step_contMid (n / 262144) 0 3 _ _ (0x80 + (n / 4096) % 64)
          (by omega) (by omega) (by split <;> omega) (by split <;> omega)]
        dsimp only
        have e2 : n / 262144 * 64 + (0x80 + (n / 4096) % 64 - 0x80)
            = n / 4096 := by omega
        rw [e2]
        rw [utf8Step_contMid (n / 4096) 1 3 0x80 0xBF (0x80 + (n / 64) % 64)
          (by omega) (by omega) (by omega) (by omega)]
        dsimp only
        have e3 : n / 4096 * 64 + (0x80 + (n / 64) % 64 - 0x80) = n / 64 := by
          omega
        rw [e3]
        rw [utf8Step_contFin (n / 64) 2 3 0x80 0xBF (0x80 + n % 64)
          (by omega) rfl (by omega) (by omega)]
        dsimp only
        have e4 : n / 64 * 64 + (0x80 + n % 64 - 0x80) = n := by omega
        rw [e4]
        simp

theorem char_valid_toNat (c : Char) : Nat.isValidChar c.toNat := c.valid

theorem decodeList_utf8EncodeChars (cs : List Char) :
    decodeList initDecoder (utf8EncodeChars cs) = (initDecoder, cs) := by
  induction cs with
  | nil => rfl
  | cons c cs ih =>
    rw [utf8EncodeChars, decode_encodeChar c.toNat (char_valid_toNat c),
      ih, Char.ofNat_toNat]

theorem decodeList_utf8Encode (s : String) :
    decodeList initDecoder (utf8Encode s) = (initDecoder, s.data) :=
  decodeList_utf8EncodeChars s.data

theorem decodeList_append (ds : DecoderState) (a b : List Nat) :
    decodeList ds (a ++ b) =
      ((decodeList (decodeList ds a).1 b).1,
       (decodeList ds a).2 ++ (decodeList (decodeList ds a).1 b).2) := by
  induction a generalizing ds with
  | nil => simp [decodeList]
  | cons x xs ih =>
    simp only [List.cons_append, decodeList, List.append_eq, ih,
      List.append_assoc]

theorem string_mk_append (a b : List Char) :
    String.mk a ++ String.mk b = String.mk (a ++ b) := rfl

theorem string_append_mk_nil (s : String) : s ++ String.mk [] = s := by
  cases s with
  | mk l => rw [string_mk_append, List.append_nil]

theorem string_empty_append (l : List Char) :
    "" ++ String.mk l = String.mk l := by
  rw [show ("" : String) = String.mk [] from rfl, string_mk_append,
    List.nil_append]

theorem string_append_mk_mk (s : String) (x y : List Char) :
    s ++ String.mk x ++ String.mk y = s ++ String.mk (x ++ y) := by
  cases s with
  | mk l =>
    rw [string_mk_append, string_mk_append, string_mk_append,
      List.append_assoc]

theorem chunkUpdate_concat (xs : List Message) (c0 acc : String) :
    chunkUpdate (xs ++ [Message.mk "ai" c0]) acc
      = xs ++ [Message.mk "ai" acc] := by
  rw [chunkUpdate]
  simp [List.getLast?_concat, List.dropLast_concat]

theorem errorUpdate_concat (xs : List Message) (c0 : String) (e : Message) :
    errorUpdate (xs ++ [Message.mk "ai" c0]) e = xs ++ [e] := by
  rw [errorUpdate]
  simp [List.getLast?_concat, List.dropLast_concat]

theorem streamStep_concat (ds : DecoderState) (content : String)
    (base : List Message) (c : List Nat) :
    streamStep (StreamAcc.mk ds content (base ++ [Message.mk "ai" content])) c
      = StreamAcc.mk (decodeList ds c).1
          (content ++ String.mk (decodeList ds c).2)
          (base ++ [Message.mk "ai"
            (content ++ String.mk (decodeList ds c).2)]) := by
  rw [streamStep]
  dsimp only
  rw [chunkUpdate_concat]

theorem streamLoop_spec (chunks : List (List Nat)) (ds : DecoderState)
    (content : String) (base : List Message) :
    streamLoop (StreamAcc.mk ds content (base ++ [Message.mk "ai" content]))
      chunks =
      StreamAcc.mk (decodeList ds chunks.flatten).1
        (content ++ String.mk (decodeList ds chunks.flatten).2)
        (base ++ [Message.mk "ai"
          (content ++ String.mk (decodeList ds chunks.flatten).2)]) := by
  induction chunks generalizing ds content with
  | nil =>
    simp only [streamLoop, List.foldl_nil, List.flatten_nil, decodeList]
    rw [string_append_mk_nil]
  | cons c cs ih =>
    rw [streamLoop, List.foldl_cons, streamStep_concat, ← streamLoop, ih,
      List.flatten_cons, decodeList_append]
    dsimp only
    rw [string_append_mk_mk]

/-! ## Handler lemmas -/

theorem fetchHistory_fst_messages (st : AppState) (u : String)
    (r : HistoryResult) : (fetchHistory st u r).1.messages = st.messages := by
  rw [fetchHistory.eq_def]
  split
  · rfl
  · cases r <;> rfl

theorem fetchHistory_fst_isLoading (st : AppState) (u : String)
    (r : HistoryResult) : (fetchHistory st u r).1.isLoading = st.isLoading := by
  rw [fetchHistory.eq_def]
  split
  · rfl
  · cases r <;> rfl

theorem fetchHistory_calls (st : AppState) (u : String) (r : HistoryResult) :
    (fetchHistory st u r).2.2
      = if u = "" then [] else [ExtCall.historySelect u] := by
  rw [fetchHistory.eq_def]
  split
  · rfl
  · cases r <;> rfl

theorem finallyResync_messages (st4 : AppState) (uid : String) (inew : Bool)
    (hist : HistoryResult) (rc : ExtCall) :
    (finallyResync st4 uid inew hist rc).1.messages = st4.messages := by
  rw [finallyResync]
  split
  · rcases hfh : fetchHistory st4 uid hist with ⟨st5, data, calls⟩
    have h5 : st5.messages = st4.messages := by
      have := fetchHistory_fst_messages st4 uid hist
      rw [hfh] at this
      exact this
    rcases data with - | (- | ⟨c, cs⟩) <;> simp [hfh, h5]
  · rfl

theorem finallyResync_isLoading (st4 : AppState) (uid : String) (inew : Bool)
    (hist : HistoryResult) (rc : ExtCall) :
    (finallyResync st4 uid inew hist rc).1.isLoading = st4.isLoading := by
  rw [finallyResync]
  split
  · rcases hfh : fetchHistory st4 uid hist with ⟨st5, data, calls⟩
    have h5 : st5.isLoading = st4.isLoading := by
      have := fetchHistory_fst_isLoading st4 uid hist
      rw [hfh] at this
      exact this
    rcases data with - | (- | ⟨c, cs⟩) <;> simp [hfh, h5]
  · rfl

theorem finallyResync_calls (st4 : AppState) (uid : String) (inew : Bool)
    (hist : HistoryResult) (rc : ExtCall) :
    (finallyResync st4 uid inew hist rc).2
      = rc :: (if inew && st4.session.isSome then
          (if uid = "" then [] else [ExtCall.historySelect uid]) else []) := by
  rw [finallyResync]
  split
  · rcases hfh : fetchHistory st4 uid hist with ⟨st5, data, calls⟩
    have hc : calls = if uid = "" then [] else [ExtCall.historySelect uid] := by
      have := fetchHistory_calls st4 uid hist
      rw [hfh] at this
      exact this
    rename_i hcond
    rcases data with - | (- | ⟨c, cs⟩) <;> simp [hfh, hc, hcond]
  · rename_i hcond
    simp [eq_false_of_ne_true hcond]

theorem handleResearch_noop (st : AppState) (o : ResearchOutcome)
    (hist : HistoryResult)
    (h : st.session = none ∨ st.query = "" ∨ st.isLoading = true) :
    handleResearch st o hist = (st, []) := by
  rw [handleResearch, if_pos h]


theorem guard_false (st : AppState) (hses : st.session ≠ none)
    (hq : st.query ≠ "") (hl : st.isLoading = false) :
    ¬(st.session = none ∨ st.query = "" ∨ st.isLoading = true) := by
  simp [hses, hq, hl]

theorem handleResearch_messages (st : AppState) (o : ResearchOutcome)
    (hist : HistoryResult) (hses : st.session ≠ none) (hq : st.query ≠ "")
    (hl : st.isLoading = false) :
    (handleResearch st o hist).1.messages =
      st.messages ++ [Message.mk "user" st.query,
                      Message.mk "ai" (researchFinalContent o)] := by
  rw [handleResearch, if_neg (guard_false st hses hq hl)]
  dsimp only
  rw [finallyResync_messages]
  rcases o with m | ⟨status, detail⟩ | ⟨chunks, re⟩
  · dsimp only
    rw [errorUpdate_concat]
    simp [researchFinalContent, researchErrorMessage]
  · dsimp only
    rw [errorUpdate_concat]
    simp [researchFinalContent, researchErrorMessage]
  · rcases re with - | m
    · dsimp only
      rw [streamLoop_spec]
      dsimp only
      rw [string_empty_append]
      simp [researchFinalContent]
    · dsimp only
      rw [streamLoop_spec]
      dsimp only
      rw [errorUpdate_concat]
      simp [researchFinalContent, researchErrorMessage]


theorem handleResearch_isLoading_false (st : AppState) (o : ResearchOutcome)
    (hist : HistoryResult) (hses : st.session ≠ none) (hq : st.query ≠ "")
    (hl : st.isLoading = false) :
    (handleResearch st o hist).1.isLoading = false := by
  rw [handleResearch, if_neg (guard_false st hses hq hl)]
  dsimp only
  rw [finallyResync_isLoading]

theorem handleResearch_calls (st : AppState) (o : ResearchOutcome)
    (hist : HistoryResult) (u : String) (hu : st.session = some u)
    (hq : st.query ≠ "") (hl : st.isLoading = false) :
    (handleResearch st o hist).2 =
      ExtCall.research st.query u st.currentConversationId ::
        (if st.currentConversationId.isNone then
          (if u = "" then [] else [ExtCall.historySelect u])
         else []) := by
  have hses : st.session ≠ none := by rw [hu]; exact Option.some_ne_none u
  rw [handleResearch, if_neg (guard_false st hses hq hl)]
  dsimp only
  rw [finallyResync_calls]
  rcases o with m | ⟨status, detail⟩ | ⟨chunks, re⟩
  · simp [hu]
  · simp [hu]
  · rcases re with - | m <;> simp [hu]

theorem noConsecAiR_append2 (rs : List String) (r1 r2 : String)
    (h : noConsecAiR rs = true) (hr1 : r1 ≠ "ai") :
    noConsecAiR (rs ++ [r1, r2]) = true := by
  induction rs with
  | nil => simp [noConsecAiR, hr1]
  | cons a t ih =>
    cases t with
    | nil => simp [noConsecAiR, hr1]
    | cons b t2 =>
      simp only [noConsecAiR, Bool.and_eq_true] at h
      simp only [List.cons_append, noConsecAiR, Bool.and_eq_true]
      refine ⟨h.1, ?_⟩
      have h2 := ih h.2
      simpa [List.cons_append] using h2

theorem noConsecAi_append_user_ai (m0 : List Message) (q c : String)
    (h : noConsecAi m0 = true) :
    noConsecAi (m0 ++ [Message.mk "user" q, Message.mk "ai" c]) = true := by
  rw [noConsecAi] at h ⊢
  rw [List.map_append]
  exact noConsecAiR_append2 _ "user" "ai" h (by decide)


theorem getLast?_append_pair (l : List Message) (a b : Message) :
    (l ++ [a, b]).getLast? = some b := by
  rw [List.append_cons, List.getLast?_concat]

/-! ## Claims -/

/-- C1: for every sequence of byte chunks delivered by the research stream,
the final content of the trailing `ai`-role message after the stream ends
equals the UTF-8 decoding of the concatenation of all chunks — here: if the
concatenated bytes are the UTF-8 encoding of `s`, the trailing `ai` entry
ends with content exactly `s`, however the chunk boundaries split multi-byte
characters (the decoder carries partial-codepoint state between chunks). -/
theorem c1_stream_final_content (st : AppState) (chunks : List (List Nat))
    (hist : HistoryResult) (s : String)
    (hses : st.session ≠ none) (hq : st.query ≠ "") (hl : st.isLoading = false)
    (henc : chunks.flatten = utf8Encode s) :
    ((handleResearch st (.stream chunks none) hist).1.messages).getLast? =
      some (Message.mk "ai" s) := by
  rw [handleResearch_messages st _ hist hses hq hl]
  have hc : researchFinalContent (.stream chunks none) = s := by
    simp only [researchFinalContent]
    rw [henc, decodeList_utf8Encode]
  rw [hc, getLast?_append_pair]

theorem c1_witness :
    ((handleResearch
        ⟨some "u1", [], "hello", [], none, false, false, false, false⟩
        (.stream [[0xC3], [0xA9]] none) (.ok none)).1.messages).getLast? =
      some (Message.mk "ai" "é") :=
  c1_stream_final_content _ [[0xC3], [0xA9]] _ "é" (by decide) (by decide)
    rfl (by decide)

/-- C2: for every initial message sequence with no two consecutive `ai`-role
entries and every outcome of a send (stream consumed to the end, mid-stream
read failure, or a network/HTTP error), the resulting message sequence
contains no two consecutive `ai`-role entries after `handleResearch`
completes (the guard-rejected call included). -/
theorem c2_no_consecutive_ai (st : AppState) (o : ResearchOutcome)
    (hist : HistoryResult) (h : noConsecAi st.messages = true) :
    noConsecAi ((handleResearch st o hist).1.messages) = true := by
  by_cases hg : st.session = none ∨ st.query = "" ∨ st.isLoading = true
  · rw [handleResearch_noop st o hist hg]
    exact h
  · push_neg at hg
    obtain ⟨hses, hq, hl⟩ := hg
    simp only [ne_eq, Bool.not_eq_true] at hl
    rw [handleResearch_messages st o hist hses hq hl]
    exact noConsecAi_append_user_ai _ _ _ h

theorem c2_witness :
    noConsecAi ((handleResearch
      ⟨some "u1", [], "q", [], some "c1", false, false, false, false⟩
      (.netError "down") (.err "e")).1.messages) = true :=
  c2_no_consecutive_ai _ _ _ (by decide)

/-- C5: for every outcome of `handleResearch` (stream success, HTTP error,
network error, or a mid-stream exception), the busy flag `isLoading` is
false after the call completes — the send state machine returns to idle. -/
theorem c5_busy_flag_cleared (st : AppState) (o : ResearchOutcome)
    (hist : HistoryResult) (h : st.isLoading = false) :
    (handleResearch st o hist).1.isLoading = false := by
  by_cases hg : st.session = none ∨ st.query = "" ∨ st.isLoading = true
  · rw [handleResearch_noop st o hist hg]
    exact h
  · push_neg at hg
    exact handleResearch_isLoading_false st o hist hg.1 hg.2.1 h

theorem c5_witness :
    (handleResearch
      ⟨some "u1", [], "q", [], some "c1", false, false, false, false⟩
      (.httpError 503 none) (.err "e")).1.isLoading = false :=
  c5_busy_flag_cleared _ _ _ rfl

/-- C6: if the backend responds to the research POST with HTTP status 500
and body `{"detail":"overloaded"}`, the final `ai`-role entry's content
after `handleResearch` completes is an error message containing the
substring `"overloaded"`. -/
theorem c6_http500_overloaded (st : AppState) (hist : HistoryResult)
    (hses : st.session ≠ none) (hq : st.query ≠ "")
    (hl : st.isLoading = false) :
    ∃ pre post : String,
      ((handleResearch st (.httpError 500 (some "overloaded"))
          hist).1.messages).getLast?
        = some (Message.mk "ai" (pre ++ "overloaded" ++ post)) := by
  refine ⟨"Error: ",
    "\n\nThere was an issue connecting to the AI service.", ?_⟩
  rw [handleResearch_messages st _ hist hses hq hl, getLast?_append_pair]
  rfl

theorem c6_witness :
    ∃ pre post : String,
      ((handleResearch
          ⟨some "u1", [], "q", [], some "c1", false, false, false, false⟩
          (.httpError 500 (some "overloaded")) (.err "e")).1.messages).getLast?
        = some (Message.mk "ai" (pre ++ "overloaded" ++ post)) :=
  c6_http500_overloaded _ _ (by decide) (by decide) rfl

/-- C8: whenever the input query is empty, no session exists, or a send is
already in flight, `handleResearch` is a no-op: the whole state (message
sequence included) is unchanged and no external call is issued. -/
theorem c8_empty_send_noop (st : AppState) (o : ResearchOutcome)
    (hist : HistoryResult)
    (h : st.query = "" ∨ st.session = none ∨ st.isLoading = true) :
    handleResearch st o hist = (st, []) :=
  handleResearch_noop st o hist (by tauto)

theorem c8_witness :
    handleResearch
        ⟨some "u1", [Message.mk "user" "q"], "", [], some "c1", false,
         false, false, false⟩
        (.stream [[72]] none) (.ok none)
      = (⟨some "u1", [Message.mk "user" "q"], "", [], some "c1", false,
          false, false, false⟩, []) :=
  c8_empty_send_noop _ _ _ (Or.inl rfl)

/-- C9: the per-chunk `setMessages` transition modifies at most the last
entry of the sequence: the length is unchanged, all entries except the last
are unchanged, and when the last entry's role is not `ai` (or the list is
empty) the whole sequence is left untouched. -/
theorem c9_chunk_frame (msgs : List Message) (acc : String) :
    (chunkUpdate msgs acc).length = msgs.length ∧
    (chunkUpdate msgs acc).dropLast = msgs.dropLast ∧
    (∀ m, msgs.getLast? = some m → m.role ≠ "ai" →
      chunkUpdate msgs acc = msgs) := by
  rcases List.eq_nil_or_concat msgs with hnil | ⟨l, a, hcat⟩
  · subst hnil
    refine ⟨rfl, rfl, ?_⟩
    intro m hm
    simp at hm
  · rw [List.concat_eq_append] at hcat
    subst hcat
    by_cases ha : a.role = "ai"
    · have hcu : chunkUpdate (l ++ [a]) acc
          = (l ++ [a]).dropLast ++ [Message.mk "ai" acc] := by
        rw [chunkUpdate, List.getLast?_concat]
        exact if_pos ha
      rw [hcu, List.dropLast_concat]
      refine ⟨by simp, by simp [List.dropLast_concat], ?_⟩
      intro m hm hrole
      rw [List.getLast?_concat] at hm
      cases hm
      exact absurd ha hrole
    · have hcu : chunkUpdate (l ++ [a]) acc = l ++ [a] := by
        rw [chunkUpdate, List.getLast?_concat]
        exact if_neg ha
      rw [hcu]
      exact ⟨rfl, rfl, fun _ _ _ => rfl⟩

theorem c9_witness :
    chunkUpdate [Message.mk "user" "hi"] "x" = [Message.mk "user" "hi"] :=
  (c9_chunk_frame [Message.mk "user" "hi"] "x").2.2 (Message.mk "user" "hi")
    (by decide) (by decide)


/-- C3: for every conversation id present in the local history, if the
message-row delete succeeds but the conversation-row delete fails, the local
history list is left unchanged and an alert reports the error. -/
theorem c3_delete_partial_failure (st : AppState) (cid m : String)
    (hfound : (st.history.find? (fun conv => conv.id == cid)).isSome
      = true) :
    (handleDeleteConversation st cid true .ok (.err m)).1.history
        = st.history ∧
    (handleDeleteConversation st cid true .ok (.err m)).2
        = ["Failed to delete chat: " ++ m] := by
  obtain ⟨c, hc⟩ := Option.isSome_iff_exists.mp hfound
  rw [handleDeleteConversation.eq_def, hc]
  exact ⟨rfl, rfl⟩

theorem c3_witness :
    (handleDeleteConversation
      ⟨some "u1", [], "", [⟨"c1", "q", 1⟩], some "c1", false, false, false,
       false⟩ "c1" true .ok (.err "boom")).1.history = [⟨"c1", "q", 1⟩] ∧
    (handleDeleteConversation
      ⟨some "u1", [], "", [⟨"c1", "q", 1⟩], some "c1", false, false, false,
       false⟩ "c1" true .ok (.err "boom")).2
        = ["Failed to delete chat: " ++ "boom"] :=
  c3_delete_partial_failure _ "c1" "boom" (by decide)

theorem finallyResync_resync (st4 : AppState) (uid : String) (rc : ExtCall)
    (c : Conv) (rest : List Conv)
    (hsess : st4.session.isSome = true) (hune : uid ≠ "") :
    finallyResync st4 uid true (.ok (some (c :: rest))) rc
      = ({ st4 with history := c :: rest, isLoadingHistory := false, currentConversationId := some c.id },
         [rc, ExtCall.historySelect uid]) := by
  rw [finallyResync, if_pos (by simp [hsess]), fetchHistory.eq_def,
    if_neg hune]
  rfl

/-- C7: for every send started with no active conversation id and any
outcome, after `handleResearch` completes the history equals the refetched
list, the active conversation id is the id of its newest (first) entry, and
the trace shows the full history refetch. -/
theorem c7_new_chat_resync (st : AppState) (o : ResearchOutcome) (u : String)
    (c : Conv) (rest : List Conv)
    (hu : st.session = some u) (hune : u ≠ "") (hq : st.query ≠ "")
    (hl : st.isLoading = false) (hnew : st.currentConversationId = none) :
    (handleResearch st o (.ok (some (c :: rest)))).1.history = c :: rest ∧
    (handleResearch st o (.ok (some (c :: rest)))).1.currentConversationId
        = some c.id ∧
    (handleResearch st o (.ok (some (c :: rest)))).2
        = [ExtCall.research st.query u none, ExtCall.historySelect u] := by
  have hses : st.session ≠ none := by rw [hu]; exact Option.some_ne_none u
  have key : ∃ msgs : List Message,
      handleResearch st o (.ok (some (c :: rest)))
        = ({ st with messages := msgs, query := "", isLoading := false, history := c :: rest, isLoadingHistory := false, currentConversationId := some c.id },
           [ExtCall.research st.query u none, ExtCall.historySelect u]) := by
    rw [handleResearch, if_neg (guard_false st hses hq hl)]
    dsimp only
    rw [hu, hnew]
    simp only [Option.isNone_none, Option.getD_some]
    rcases o with m | ⟨status, detail⟩ | ⟨chunks, re⟩
    · rw [finallyResync_resync _ _ _ c rest (by rfl) hune]
      exact ⟨_, rfl⟩
    · rw [finallyResync_resync _ _ _ c rest (by rfl) hune]
      exact ⟨_, rfl⟩
    · rcases re with - | m
      · rw [finallyResync_resync _ _ _ c rest (by rfl) hune]
        exact ⟨_, rfl⟩
      · rw [finallyResync_resync _ _ _ c rest (by rfl) hune]
        exact ⟨_, rfl⟩
  obtain ⟨msgs, hkey⟩ := key
  rw [hkey]
  exact ⟨rfl, rfl, rfl⟩

theorem c7_witness :
    (handleResearch ⟨some "u1", [], "hello", [], none, false, false, false,
        false⟩ (.stream [[72]] none)
        (.ok (some [⟨"c1", "hello", 5⟩]))).1.history = [⟨"c1", "hello", 5⟩] ∧
    (handleResearch ⟨some "u1", [], "hello", [], none, false, false, false,
        false⟩ (.stream [[72]] none)
        (.ok (some [⟨"c1", "hello", 5⟩]))).1.currentConversationId
      = some "c1" ∧
    (handleResearch ⟨some "u1", [], "hello", [], none, false, false, false,
        false⟩ (.stream [[72]] none)
        (.ok (some [⟨"c1", "hello", 5⟩]))).2
      = [ExtCall.research "hello" "u1" none, ExtCall.historySelect "u1"] :=
  c7_new_chat_resync _ _ "u1" ⟨"c1", "hello", 5⟩ [] rfl (by decide)
    (by decide) rfl rfl

/-- C4, counterexample: a send that ends in the error state (network
failure before streaming) in a session begun with no conversation id still
issues the history select — the claim's "no history resync is attempted" is
false, because the resync in the `finally` block runs on every outcome. -/
theorem c4_counterexample :
    ExtCall.historySelect "u1" ∈
      (handleResearch
        ⟨some "u1", [], "q", [], none, false, false, false, false⟩
        (.netError "down") (.ok (some [⟨"c1", "q", 0⟩]))).2 := by decide

/-- C4, amended: when a send ends in the error state (network failure or
non-2xx status before streaming), the ai placeholder is replaced with the
formatted error message; a history resync is attempted if and only if the
send began with no active conversation id (the `finally`-block resync is
unconditional on the outcome, so errors do not skip it). -/
theorem c4_error_message_and_resync (st : AppState) (o : ResearchOutcome)
    (hist : HistoryResult) (u m : String)
    (hu : st.session = some u) (hune : u ≠ "") (hq : st.query ≠ "")
    (hl : st.isLoading = false) (hpre : o.isPreStreamError = true)
    (herr : o.errText = some m) :
    (handleResearch st o hist).1.messages
      = st.messages ++ [Message.mk "user" st.query,
                        researchErrorMessage m] ∧
    (ExtCall.historySelect u ∈ (handleResearch st o hist).2
      ↔ st.currentConversationId = none) := by
  have hses : st.session ≠ none := by rw [hu]; exact Option.some_ne_none u
  constructor
  · rw [handleResearch_messages st o hist hses hq hl]
    rcases o with m0 | ⟨status, detail⟩ | ⟨chunks, re⟩
    · simp only [ResearchOutcome.errText, Option.some.injEq] at herr
      subst herr
      rfl
    · simp only [ResearchOutcome.errText, Option.some.injEq] at herr
      subst herr
      rfl
    · simp [ResearchOutcome.isPreStreamError] at hpre
  · rw [handleResearch_calls st o hist u hu hq hl]
    rcases hcc : st.currentConversationId with - | a
    · simp [hcc, hune]
    · simp [hcc]

theorem c4_witness :
    (handleResearch
        ⟨some "u1", [], "q", [], some "c7", false, false, false, false⟩
        (.netError "down") (.err "e")).1.messages
      = [] ++ [Message.mk "user" "q", researchErrorMessage "down"] ∧
    (ExtCall.historySelect "u1" ∈
        (handleResearch
          ⟨some "u1", [], "q", [], some "c7", false, false, false, false⟩
          (.netError "down") (.err "e")).2
      ↔ (some "c7" : Option String) = none) :=
  c4_error_message_and_resync _ _ _ "u1" "down" rfl (by decide) (by decide)
    rfl rfl rfl

/-- C10: `loadConversation` with a falsy id or while another load is in
flight is a no-op; and when the fetch fails (network error or non-2xx
response) the message sequence becomes exactly one `ai` entry describing
the failure while the active conversation id stays set to the requested id
(assigned before the fetch and not rolled back). -/
theorem c10_load_failure_and_noop (st : AppState) (cid : String)
    (res : LoadResult) :
    ((cid = "" ∨ st.isLoadingConversation = true) →
      loadConversation st cid res = st) ∧
    (∀ m, cid ≠ "" → st.isLoadingConversation = false →
      res.errText = some m →
      (loadConversation st cid res).messages
          = [Message.mk "ai" ("Failed to load conversation: " ++ m)] ∧
      (loadConversation st cid res).currentConversationId = some cid) := by
  constructor
  · intro hg
    rw [loadConversation, if_pos hg]
  · intro m hcid hflag herr
    have hg : ¬(cid = "" ∨ st.isLoadingConversation = true) := by
      simp [hcid, hflag]
    rw [loadConversation, if_neg hg]
    rcases res with m0 | detail | data
    · simp only [LoadResult.errText, Option.some.injEq] at herr
      subst herr
      exact ⟨rfl, rfl⟩
    · rcases detail with - | d
      · simp only [LoadResult.errText, Option.some.injEq] at herr
        subst herr
        exact ⟨rfl, rfl⟩
      · simp only [LoadResult.errText, Option.some.injEq] at herr
        subst herr
        exact ⟨rfl, rfl⟩
    · simp [LoadResult.errText] at herr

theorem c10_witness :
    loadConversation
        ⟨some "u1", [], "", [], none, false, false, false, false⟩ ""
        (.ok [])
      = ⟨some "u1", [], "", [], none, false, false, false, false⟩ ∧
    (loadConversation
        ⟨some "u1", [Message.mk "user" "q"], "", [], none, false, false,
         false, false⟩ "42" (.netError "down")).messages
      = [Message.mk "ai" ("Failed to load conversation: " ++ "down")] ∧
    (loadConversation
        ⟨some "u1", [Message.mk "user" "q"], "", [], none, false, false,
         false, false⟩ "42" (.netError "down")).currentConversationId
      = some "42" := by
  refine ⟨(c10_load_failure_and_noop _ "" (.ok [])).1 (Or.inl rfl), ?_, ?_⟩
  · exact ((c10_load_failure_and_noop _ "42" (.netError "down")).2 "down"
      (by decide) rfl rfl).1
  · exact ((c10_load_failure_and_noop _ "42" (.netError "down")).2 "down"
      (by decide) rfl rfl).2


end AiResearcher
